import Mathlib

/-!
Verification of the annotation engine of the `annotate-tool` repository.

The source is a TypeScript/React design-QA review tool.  The embedding below
translates the coordinate model, the drawing conversion, the adapter of the
external collaborator's raw result, and the issue-editing state machine into
Lean definitions.  Numbers are modelled as exact rationals (the source uses
JavaScript doubles; every arithmetic fact proved here is about the ideal
real-number computation the source expresses).

Source locations are cited by file and line next to each definition.
-/

namespace AnnotateTool

/-- The two annotation kinds of `types.ts` (`type: 'box' | 'arrow'`). -/
inductive AnnType where
  | box
  | arrow
deriving DecidableEq

/-- Severity enum of `types.ts` (`'High' | 'Medium' | 'Low'`). -/
inductive Severity where
  | high
  | medium
  | low
deriving DecidableEq

/-- A 4-tuple of coordinates, `[c1, c2, c3, c4]` in the source.  For a box it
is `[ymin, xmin, ymax, xmax]`; for an arrow, `[y1, x1, y2, x2]`. -/
structure Coords where
  c1 : ℚ
  c2 : ℚ
  c3 : ℚ
  c4 : ℚ
deriving DecidableEq

/-- The annotation primitive of `types.ts`: a kind tag plus a coordinate
4-tuple. -/
structure Annotation where
  type : AnnType
  coords : Coords
deriving DecidableEq

/-- The `Issue` record of `types.ts` (the deprecated optional `box_2d` fields
live only on the adapter's raw input and are not part of the working record
the component manipulates). -/
structure Issue where
  id : String
  title : String
  description : String
  liveAnnotations : List Annotation
  designAnnotations : List Annotation
  designReference : String
  liveObservation : String
  suggestion : String
  severity : Severity
  annotationType : Option AnnType
deriving DecidableEq

/-- Which image surface an annotation or drag belongs to
(`'design' | 'live'` in the source). -/
inductive Side where
  | design
  | live
deriving DecidableEq

/-- The annotation sequence of an issue on a given side. -/
def annotationsOf (i : Issue) (s : Side) : List Annotation :=
  match s with
  | .design => i.designAnnotations
  | .live => i.liveAnnotations

/-- A pixel point on a surface. -/
structure Point where
  x : ℚ
  y : ℚ
deriving DecidableEq

/- ### Region coordinate model -/

/-- Pixel to normalized conversion of `handleMouseUp`
(part_000 lines 157-160): `(raw / rect.dimension) * 1000`. -/
def toNormalized (pixel dim : ℚ) : ℚ :=
  pixel / dim * 1000

/-- The percentage-based geometry descriptor produced by `getStyleFromBox`
(part_000 lines 64-69): `top/left/height/width` as percentages of the
surface. -/
structure BoxStyle where
  top : ℚ
  left : ℚ
  height : ℚ
  width : ℚ
deriving DecidableEq

/-- `getStyleFromBox` (part_000 lines 59-70).  Returns `none` for the
degenerate all-zero sentinel (the source returns `display: 'none'`),
otherwise each normalized coordinate is divided by 10 to obtain a
percentage. -/
def getStyleFromBox (b : Coords) : Option BoxStyle :=
  if b.c1 = 0 ∧ b.c2 = 0 ∧ b.c3 = 0 ∧ b.c4 = 0 then none
  else
    some { top := b.c1 / 10, left := b.c2 / 10,
           height := (b.c3 - b.c1) / 10, width := (b.c4 - b.c2) / 10 }

/-- The crop style of the detail view: background position percentages plus
zoom level (`getCropStyle`, part_000 lines 88-93).  The `image` field records
the `backgroundImage` source. -/
structure CropStyle where
  image : String
  posX : ℚ
  posY : ℚ
  zoom : ℚ
deriving DecidableEq

/-- The box the crop view keys on (part_000 lines 76-77): the first
annotation's coords, or the all-zero fallback when the side has no
annotations. -/
def cropBox (issue : Issue) (side : Side) : Coords :=
  match annotationsOf issue side with
  | [] => ⟨0, 0, 0, 0⟩
  | a :: _ => a.coords

/-- `getCropStyle` (part_000 lines 72-94).  `none` models the empty style
`{}` returned when no image source is present; otherwise the crop is centered
on the midpoint of the (min/max-normalized) crop box, in percent. -/
def getCropStyle (issue : Issue) (imageSrc : Option String) (side : Side)
    (zoomLevel : ℚ) : Option CropStyle :=
  match imageSrc with
  | none => none
  | some src =>
    let b := cropBox issue side
    let minY := min b.c1 b.c3
    let maxY := max b.c1 b.c3
    let minX := min b.c2 b.c4
    let maxX := max b.c2 b.c4
    some { image := src, posX := (minX + maxX) / 2 / 10,
           posY := (minY + maxY) / 2 / 10, zoom := zoomLevel }

/- ### Interactive and export rendering of a single annotation -/

/-- What the interactive renderer paints for one annotation: either an SVG
line with the four arrow endpoints (in the 0-1000 viewBox), or a box overlay
positioned by `getStyleFromBox`. -/
inductive Rendered where
  | arrowLine (y1 x1 y2 x2 : ℚ)
  | boxOverlay (style : BoxStyle)
deriving DecidableEq

/-- The geometry decision of `renderAnnotation` (part_000 lines 281-429):
`null` when the coords are the all-zero sentinel (line 295), otherwise an
arrow line at the stored endpoints (lines 298-373) or a box overlay styled by
`getStyleFromBox` (lines 377-428). -/
def renderAnnotation (a : Annotation) : Option Rendered :=
  if a.coords.c1 = 0 ∧ a.coords.c2 = 0 ∧ a.coords.c3 = 0 ∧ a.coords.c4 = 0 then
    none
  else
    match a.type with
    | .arrow => some (.arrowLine a.coords.c1 a.coords.c2 a.coords.c3 a.coords.c4)
    | .box => Option.map Rendered.boxOverlay (getStyleFromBox a.coords)

/-- The `getStyle` helper of the exported report (reportExporter lines
236-239): `display: none` (here `none`) when the box is missing or all-zero,
otherwise the same divide-by-10 percentage geometry. -/
def exportGetStyle (b : Option Coords) : Option BoxStyle :=
  match b with
  | none => none
  | some box =>
    if box.c1 = 0 ∧ box.c2 = 0 ∧ box.c3 = 0 ∧ box.c4 = 0 then none
    else
      some { top := box.c1 / 10, left := box.c2 / 10,
             height := (box.c3 - box.c1) / 10, width := (box.c4 - box.c2) / 10 }

/- ### Drawing conversion (pointer drag to annotation) -/

/-- The pointer clamp of `handleMouseMove` (part_000 lines 133-134):
`clamped = max(0, min(p, dimension))` on each axis. -/
def clampToSurface (p : Point) (w h : ℚ) : Point :=
  ⟨max 0 (min p.x w), max 0 (min p.y h)⟩

/-- The coordinate construction of `handleMouseUp` (part_000 lines 157-176):
convert both endpoints to the 0-1000 scale, then for an arrow keep
`[startY, startX, endY, endX]` as dragged, and for a box apply min/max to get
`[ymin, xmin, ymax, xmax]`. -/
def dragCoords (annType : AnnType) (dragStart currentDrag : Point)
    (w h : ℚ) : Coords :=
  let startX := toNormalized dragStart.x w
  let startY := toNormalized dragStart.y h
  let endX := toNormalized currentDrag.x w
  let endY := toNormalized currentDrag.y h
  match annType with
  | .arrow => ⟨startY, startX, endY, endX⟩
  | .box => ⟨min startY endY, min startX endX, max startY endY, max startX endX⟩

/-- `handleMouseUp` (part_000 lines 139-198), restricted to the annotation it
constructs: `none` when the raw pixel displacement is below the 5px threshold
in both axes (lines 151-155), otherwise an annotation of the edit buffer's
preferred kind (`editForm.annotationType || 'box'`, line 163) with the
converted coordinates. -/
def handleMouseUp (annTypePref : Option AnnType) (dragStart currentDrag : Point)
    (w h : ℚ) : Option Annotation :=
  if |dragStart.x - currentDrag.x| < 5 ∧ |dragStart.y - currentDrag.y| < 5 then
    none
  else
    let annType := annTypePref.getD .box
    some ⟨annType, dragCoords annType dragStart currentDrag w h⟩

/- ### Issue editing state machine -/

/-- The component state the editing machine works on: the committed issue
collection (`issues`), the identifier of the issue under edit
(`editingIssueId`, `none` for no edit session), and the edit buffer
(`editForm`; the source's `Partial<Issue>` is `{}` outside a session and a
full issue during one, since `startEdit`/`createIssue` always seed it with a
whole record — modelled as `Option Issue`). -/
structure State where
  issues : List Issue
  editingIssueId : Option String
  editForm : Option Issue
deriving DecidableEq

/-- The untouched-new-issue test of `cancelEdit` (part_000 line 270): both
annotation sequences empty and the title still the `"New Issue"`
placeholder. -/
def isUntouchedNew (i : Issue) : Bool :=
  i.liveAnnotations.isEmpty && i.designAnnotations.isEmpty && i.title == "New Issue"

/-- `cancelEdit` (part_000 lines 266-275): looks up the committed version of
the record under edit; if it is an untouched new issue, filters it out of the
committed collection; in every case the editing id and the buffer are
cleared. -/
def cancelEdit (s : State) : State :=
  let issues' :=
    match s.editingIssueId with
    | none => s.issues
    | some eid =>
      match s.issues.find? (fun i => i.id == eid) with
      | none => s.issues
      | some orig =>
        if isUntouchedNew orig then s.issues.filter (fun i => i.id != eid)
        else s.issues
  { issues := issues', editingIssueId := none, editForm := none }

/-- `saveEdit` (part_000 lines 259-264): a no-op without an editing id;
otherwise each committed record with the edited identifier is replaced by
`{ ...i, ...editForm }`.  Because the buffer always carries every field of a
record during a session, the spread merge equals the buffer itself (and the
record unchanged when the buffer is the empty `{}`), which
`Option.getD` expresses.  The editing id and buffer are then cleared. -/
def saveEdit (s : State) : State :=
  match s.editingIssueId with
  | none => s
  | some eid =>
    { issues := s.issues.map (fun i => if i.id == eid then s.editForm.getD i else i),
      editingIssueId := none, editForm := none }

/-- `startEdit` (part_000 lines 217-231): if another issue is under edit, it
is first cancelled (the inner `cancelEdit` reads the same state, and its
issue-collection write is not overwritten later in this handler, so plain
sequencing is faithful here); then the editing id is set to the target's id
and the buffer is seeded with a copy of the target (the source spreads the
issue and clones both annotation arrays; in this pure model the copy is the
value itself). -/
def startEdit (issue : Issue) (s : State) : State :=
  let s1 :=
    if s.editingIssueId.any (fun eid => eid != issue.id) then cancelEdit s else s
  { issues := s1.issues, editingIssueId := some issue.id, editForm := some issue }

/-- The fresh record `createIssue` synthesizes (part_000 lines 234-246),
parameterized by the generated identifier (`Date.now().toString()` in the
source). -/
def newIssue (freshId : String) : Issue :=
  { id := freshId, title := "New Issue", description := "Describe the issue...",
    liveAnnotations := [], designAnnotations := [],
    designReference := "Expected behavior...",
    liveObservation := "Observed behavior...",
    suggestion := "Suggested fix...",
    severity := .medium, annotationType := some .box }

/-- `createIssue` (part_000 lines 233-249) as one event handler under React's
batched-state semantics: every read of `issues` / `editingIssueId` inside the
handler sees the render snapshot `s`, queued `setIssues` calls are applied in
order, and the last queued value wins.  The handler queues
`setIssues([newIssue, ...issues])` (line 247) and then runs
`startEdit(newIssue)` (line 248); when another issue is under edit,
`startEdit` invokes `cancelEdit` (lines 219-221), whose
`setIssues(issues.filter(...))` (line 271) is computed from the same snapshot
`s.issues` — which does not contain the new record — and, being queued later,
replaces the prepended list.  So the final collection is the stale filtered
list whenever the previously edited issue was an untouched new issue, and the
prepended list otherwise.  The editing id and buffer end on the new record
(last writes, lines 223-229). -/
def createIssue (freshId : String) (s : State) : State :=
  let n := newIssue freshId
  let issuesFinal :=
    match s.editingIssueId with
    | none => n :: s.issues
    | some eid =>
      if eid != n.id then
        match s.issues.find? (fun i => i.id == eid) with
        | none => n :: s.issues
        | some orig =>
          if isUntouchedNew orig then s.issues.filter (fun i => i.id != eid)
          else n :: s.issues
      else n :: s.issues
  { issues := issuesFinal, editingIssueId := some n.id, editForm := some n }

/- ### Buffer mutations (field edits, drawn annotations, deletions) -/

/-- The buffer append of `handleMouseUp` (part_000 lines 184-194):
`setEditForm(prev => ({ ...prev, <side>Annotations: [...(prev || []), a] }))`.
Only the buffer changes; the drawing guard (line 114) ensures a session is
active, so the buffer is a full record. -/
def appendAnnotation (side : Side) (a : Annotation) (s : State) : State :=
  { s with
    editForm := s.editForm.map (fun f =>
      match side with
      | .design => { f with designAnnotations := f.designAnnotations ++ [a] }
      | .live => { f with liveAnnotations := f.liveAnnotations ++ [a] }) }

/-- `deleteAnnotation` (part_000 lines 200-213): removes the buffer entry at
the given index (the source's `filter((_, i) => i !== index)` is removal at an
index, `List.eraseIdx`). -/
def deleteAnnotation (side : Side) (index : Nat) (s : State) : State :=
  { s with
    editForm := s.editForm.map (fun f =>
      match side with
      | .design => { f with designAnnotations := f.designAnnotations.eraseIdx index }
      | .live => { f with liveAnnotations := f.liveAnnotations.eraseIdx index }) }

/-- Title field edit (part_000 line 686): `setEditForm({ ...editForm, title })`. -/
def setTitle (t : String) (s : State) : State :=
  { s with editForm := s.editForm.map (fun f => { f with title := t }) }

/-- Description field edit (part_000 line 694). -/
def setDescription (d : String) (s : State) : State :=
  { s with editForm := s.editForm.map (fun f => { f with description := d }) }

/-- Severity field edit (part_000 line 703). -/
def setSeverity (sev : Severity) (s : State) : State :=
  { s with editForm := s.editForm.map (fun f => { f with severity := sev }) }

/-- Annotation-kind preference edit (part_000 lines 664, 671). -/
def setAnnTypePref (t : AnnType) (s : State) : State :=
  { s with editForm := s.editForm.map (fun f => { f with annotationType := some t }) }

/- ### Adapter of the external collaborator's raw result -/

/-- One raw specific issue as produced by the collaborator
(geminiService.ts; the legacy single bounding boxes are optional lists of
unknown length, since the parsed JSON is unvalidated). -/
structure RawIssue where
  id : String
  title : String
  description : String
  box_2d : Option (List ℚ)
  design_box_2d : Option (List ℚ)
  designReference : String
  liveObservation : String
  suggestion : String
  severity : Severity
deriving DecidableEq

/-- The legacy-box conversion of `runDesignQA` (geminiService.ts lines
103-108): `b && b.length === 4 ? [{ type: 'box', coords: b }] : []` (an empty
array is truthy in JavaScript, so only the length test decides for a present
list). -/
def annotationsFromBox (b : Option (List ℚ)) : List Annotation :=
  match b with
  | some [y1, x1, y2, x2] => [⟨.box, ⟨y1, x1, y2, x2⟩⟩]
  | _ => []

/-- The per-issue transform of `runDesignQA` (geminiService.ts lines
101-110): spread the raw fields, build both annotation sequences from the
legacy boxes, and default the UI annotation kind to `'box'`. -/
def transformIssue (r : RawIssue) : Issue :=
  { id := r.id, title := r.title, description := r.description,
    liveAnnotations := annotationsFromBox r.box_2d,
    designAnnotations := annotationsFromBox r.design_box_2d,
    designReference := r.designReference,
    liveObservation := r.liveObservation,
    suggestion := r.suggestion,
    severity := r.severity, annotationType := some .box }

/-- The normalized-coordinate range property of the spec: every component of
a coordinate tuple lies in `[0, 1000]`. -/
def coordsInRange (c : Coords) : Prop :=
  (0 ≤ c.c1 ∧ c.c1 ≤ 1000) ∧ (0 ≤ c.c2 ∧ c.c2 ≤ 1000)
  ∧ (0 ≤ c.c3 ∧ c.c3 ≤ 1000) ∧ (0 ≤ c.c4 ∧ c.c4 ≤ 1000)

instance (c : Coords) : Decidable (coordsInRange c) := by
  unfold coordsInRange
  infer_instance

/- ### Concrete inputs used to instantiate the theorems -/

/-- A committed issue that is not untouched-new: it carries one live
annotation and an edited title. -/
def touchedIssue : Issue :=
  { id := "t1", title := "Misaligned header", description := "Header shifted",
    liveAnnotations := [⟨.box, ⟨100, 200, 300, 400⟩⟩],
    designAnnotations := [],
    designReference := "Flush left", liveObservation := "Offset 8px",
    suggestion := "margin-left: 0", severity := .high,
    annotationType := some .box }

/-- A state editing a freshly created, untouched issue. -/
def stateUntouched : State :=
  { issues := [newIssue "n1", touchedIssue],
    editingIssueId := some "n1", editForm := some (newIssue "n1") }

/-- A state editing `touchedIssue` with a buffer whose title was edited and
with one extra drawn live annotation. -/
def stateTouched : State :=
  { issues := [newIssue "n1", touchedIssue],
    editingIssueId := some "t1",
    editForm := some { touchedIssue with
      title := "Misaligned header (edited)",
      liveAnnotations := touchedIssue.liveAnnotations ++ [⟨.arrow, ⟨10, 10, 10, 40⟩⟩] } }

/-- A raw collaborator issue with well-formed 4-component legacy boxes, from
the end-to-end scenario of the claim. -/
def rawWellFormed : RawIssue :=
  { id := "1", title := "Wrong color", description := "Button color differs",
    box_2d := some [100, 200, 300, 400],
    design_box_2d := some [110, 210, 310, 410],
    designReference := "Blue button", liveObservation := "Green button",
    suggestion := "background: blue", severity := .medium }

/-- A raw collaborator issue whose legacy boxes are missing or malformed. -/
def rawMalformed : RawIssue :=
  { id := "2", title := "Gap", description := "Extra gap",
    box_2d := some [100, 200, 300],
    design_box_2d := none,
    designReference := "No gap", liveObservation := "Large gap",
    suggestion := "remove margin", severity := .low }

/-- A raw collaborator issue whose live box carries a component outside the
0-1000 normalized range; the adapter stores it verbatim. -/
def rawOutOfRange : RawIssue :=
  { id := "3", title := "Shifted", description := "Out of range box",
    box_2d := some [0, 0, 2000, 0],
    design_box_2d := none,
    designReference := "In frame", liveObservation := "Out of frame",
    suggestion := "fix layout", severity := .medium }

/-- An issue whose only design-side annotation is the degenerate all-zero
sentinel. -/
def degenerateFirstIssue : Issue :=
  { id := "d1", title := "Ghost", description := "Degenerate annotation",
    liveAnnotations := [],
    designAnnotations := [⟨.box, ⟨0, 0, 0, 0⟩⟩],
    designReference := "-", liveObservation := "-",
    suggestion := "-", severity := .low, annotationType := some .box }

/-- `degenerateFirstIssue` with both annotation sequences emptied. -/
def degenerateFirstIssueCleared : Issue :=
  { degenerateFirstIssue with liveAnnotations := [], designAnnotations := [] }

/- ### C1: pixel → normalized → display-percentage round trip -/

/-- C1: for every pixel box inside a surface of positive size, converting the
endpoints to normalized coordinates (`pixel / dimension * 1000`, as on
pointer-up) and then to the display style (each normalized coordinate divided
by 10, as in `getStyleFromBox`) yields exactly the pixel point's relative
position within the surface expressed in percent — the round trip
reconstructs the relative position for any surface size (degenerate sentinel
boxes excepted, which render as `display: none`). -/
theorem c1_roundtrip_display_style (x1 y1 x2 y2 w h : ℚ)
    (hw : 0 < w) (hh : 0 < h)
    (hnd : ¬ (toNormalized y1 h = 0 ∧ toNormalized x1 w = 0 ∧
              toNormalized y2 h = 0 ∧ toNormalized x2 w = 0)) :
    getStyleFromBox ⟨toNormalized y1 h, toNormalized x1 w,
                     toNormalized y2 h, toNormalized x2 w⟩
      = some { top := y1 / h * 100, left := x1 / w * 100,
               height := (y2 - y1) / h * 100, width := (x2 - x1) / w * 100 } := by
  simp only [getStyleFromBox]
  rw [if_neg hnd]
  simp only [toNormalized, Option.some.injEq, BoxStyle.mk.injEq]
  refine ⟨by ring, by ring, by ring, by ring⟩

/-- Witness for C1 at the concrete box (30,40)-(90,120) in a 200×400
surface. -/
theorem c1_roundtrip_display_style_witness :
    (0 : ℚ) < 200 ∧ (0 : ℚ) < 400 ∧
    getStyleFromBox ⟨toNormalized 40 400, toNormalized 30 200,
                     toNormalized 120 400, toNormalized 90 200⟩
      = some { top := (40 : ℚ) / 400 * 100, left := (30 : ℚ) / 200 * 100,
               height := ((120 : ℚ) - 40) / 400 * 100,
               width := ((90 : ℚ) - 30) / 200 * 100 } :=
  ⟨by norm_num, by norm_num,
    c1_roundtrip_display_style 30 40 90 120 200 400 (by norm_num) (by norm_num)
      (by norm_num [toNormalized])⟩

/- ### C2: rectangle drags are min/max-normalized and direction-independent -/

/-- C2: every completed box drag produces coords with
`c1 ≤ c3` and `c2 ≤ c4`, and the four drag directions over the same two
corner points (start→end, end→start, and the two anti-diagonal corner
pairings) all complete and produce the identical coords tuple. -/
theorem c2_box_normalized_direction_independent (p q : Point) (w h : ℚ)
    (a : Annotation)
    (hc : handleMouseUp (some .box) p q w h = some a) :
    (a.coords.c1 ≤ a.coords.c3 ∧ a.coords.c2 ≤ a.coords.c4)
    ∧ handleMouseUp (some .box) q p w h = some a
    ∧ handleMouseUp (some .box) ⟨p.x, q.y⟩ ⟨q.x, p.y⟩ w h = some a
    ∧ handleMouseUp (some .box) ⟨q.x, p.y⟩ ⟨p.x, q.y⟩ w h = some a := by
  by_cases hth : |p.x - q.x| < 5 ∧ |p.y - q.y| < 5
  · rw [handleMouseUp, if_pos hth] at hc
    exact absurd hc (by simp)
  · rw [handleMouseUp, if_neg hth] at hc
    have hyx : ¬ (|p.y - q.y| < 5 ∧ |p.x - q.x| < 5) := fun hcon =>
      hth ⟨hcon.2, hcon.1⟩
    have hth2 : ¬ (|q.x - p.x| < 5 ∧ |q.y - p.y| < 5) := by
      rw [abs_sub_comm q.x, abs_sub_comm q.y]; exact hth
    simp only [Option.some.injEq] at hc
    subst hc
    refine ⟨⟨?_, ?_⟩, ?_, ?_, ?_⟩
    · simp [dragCoords]
    · simp [dragCoords]
    all_goals
      rw [handleMouseUp]
      simp only [abs_sub_comm q.x p.x, abs_sub_comm q.y p.y]
      rw [if_neg hth]
      simp [dragCoords, min_comm, max_comm]

/-- Witness for C2 at the drag (10,20)→(110,220) in a 1000×1000 surface. -/
theorem c2_box_normalized_direction_independent_witness :
    (((⟨.box, ⟨20, 10, 220, 110⟩⟩ : Annotation)).coords.c1
        ≤ ((⟨.box, ⟨20, 10, 220, 110⟩⟩ : Annotation)).coords.c3
      ∧ ((⟨.box, ⟨20, 10, 220, 110⟩⟩ : Annotation)).coords.c2
        ≤ ((⟨.box, ⟨20, 10, 220, 110⟩⟩ : Annotation)).coords.c4)
    ∧ handleMouseUp (some .box) ⟨110, 220⟩ ⟨10, 20⟩ 1000 1000
        = some ⟨.box, ⟨20, 10, 220, 110⟩⟩
    ∧ handleMouseUp (some .box) ⟨10, 220⟩ ⟨110, 20⟩ 1000 1000
        = some ⟨.box, ⟨20, 10, 220, 110⟩⟩
    ∧ handleMouseUp (some .box) ⟨110, 20⟩ ⟨10, 220⟩ 1000 1000
        = some ⟨.box, ⟨20, 10, 220, 110⟩⟩ :=
  c2_box_normalized_direction_independent ⟨10, 20⟩ ⟨110, 220⟩ 1000 1000
    ⟨.box, ⟨20, 10, 220, 110⟩⟩
    (by norm_num [handleMouseUp, dragCoords, toNormalized])

/- ### C3: arrow drags keep direction, reversal changes the tuple -/

/-- C3: every completed arrow drag stores exactly
`[startY, startX, endY, endX]` in normalized coordinates with no reordering,
and (for a positive-size surface) reversing the drag direction produces a
different coords tuple. -/
theorem c3_arrow_directional (p q : Point) (w h : ℚ)
    (hw : 0 < w) (hh : 0 < h) (a : Annotation)
    (hc : handleMouseUp (some .arrow) p q w h = some a) :
    a.coords = ⟨toNormalized p.y h, toNormalized p.x w,
                toNormalized q.y h, toNormalized q.x w⟩
    ∧ ∀ b : Annotation,
        handleMouseUp (some .arrow) q p w h = some b → b.coords ≠ a.coords := by
  by_cases hth : |p.x - q.x| < 5 ∧ |p.y - q.y| < 5
  · rw [handleMouseUp, if_pos hth] at hc
    exact absurd hc (by simp)
  · rw [handleMouseUp, if_neg hth] at hc
    simp only [Option.some.injEq] at hc
    subst hc
    have hth2 : ¬ (|q.x - p.x| < 5 ∧ |q.y - p.y| < 5) := by
      rw [abs_sub_comm q.x, abs_sub_comm q.y]; exact hth
    refine ⟨by simp [dragCoords], fun b hb hbad => ?_⟩
    rw [handleMouseUp, if_neg hth2] at hb
    simp only [Option.some.injEq] at hb
    subst hb
    have hh' : h ≠ 0 := ne_of_gt hh
    have hw' : w ≠ 0 := ne_of_gt hw
    have hy := congrArg Coords.c1 hbad
    have hx := congrArg Coords.c2 hbad
    simp only [dragCoords, toNormalized, Option.getD_some] at hy hx
    rw [div_mul_eq_mul_div, div_mul_eq_mul_div, div_eq_div_iff hh' hh'] at hy
    rw [div_mul_eq_mul_div, div_mul_eq_mul_div, div_eq_div_iff hw' hw'] at hx
    have hx1 := mul_right_cancel₀ hw' hx
    have hx' : q.x = p.x :=
      mul_right_cancel₀ (by norm_num : (1000 : ℚ) ≠ 0) hx1
    have hy1 := mul_right_cancel₀ hh' hy
    have hy' : q.y = p.y :=
      mul_right_cancel₀ (by norm_num : (1000 : ℚ) ≠ 0) hy1
    apply hth
    rw [hx', hy']
    norm_num

/-- Witness for C3 at the arrow drag (100,100)→(100,40) in a 1000×1000
surface. -/
theorem c3_arrow_directional_witness :
    ((⟨.arrow, ⟨100, 100, 40, 100⟩⟩ : Annotation)).coords
      = ⟨toNormalized 100 1000, toNormalized 100 1000,
         toNormalized 40 1000, toNormalized 100 1000⟩
    ∧ ∀ b : Annotation,
        handleMouseUp (some .arrow) ⟨100, 40⟩ ⟨100, 100⟩ 1000 1000 = some b →
          b.coords ≠ ((⟨.arrow, ⟨100, 100, 40, 100⟩⟩ : Annotation)).coords :=
  c3_arrow_directional ⟨100, 100⟩ ⟨100, 40⟩ 1000 1000 (by norm_num) (by norm_num)
    ⟨.arrow, ⟨100, 100, 40, 100⟩⟩
    (by norm_num [handleMouseUp, dragCoords, toNormalized])

/- ### C4: cancelEdit removes only untouched new issues -/

/-- C4: during an editing session, `cancelEdit` clears the editing id and the
buffer; if the committed (pre-edit) record has both annotation sequences
empty and the placeholder title `"New Issue"`, it is removed from the
committed collection (no record with its identifier remains); otherwise the
committed collection is left exactly as it was (the buffer is discarded, no
merge). -/
theorem c4_cancelEdit_untouched_vs_touched (s : State) (eid : String)
    (orig : Issue)
    (he : s.editingIssueId = some eid)
    (hf : s.issues.find? (fun i => i.id == eid) = some orig) :
    (cancelEdit s).editingIssueId = none ∧ (cancelEdit s).editForm = none
    ∧ (isUntouchedNew orig = true →
        (cancelEdit s).issues = s.issues.filter (fun i => i.id != eid)
        ∧ ∀ i ∈ (cancelEdit s).issues, i.id ≠ eid)
    ∧ (isUntouchedNew orig = false → (cancelEdit s).issues = s.issues) := by
  have hcan : cancelEdit s =
      { issues := if isUntouchedNew orig
                  then s.issues.filter (fun i => i.id != eid) else s.issues,
        editingIssueId := none, editForm := none } := by
    unfold cancelEdit
    rw [he]
    dsimp only
    rw [hf]
  refine ⟨by rw [hcan], by rw [hcan], fun hu => ?_, fun hu => ?_⟩
  · rw [hcan]
    simp only [hu, if_true]
    refine ⟨trivial, fun i hi => ?_⟩
    rw [List.mem_filter] at hi
    simpa using hi.2
  · rw [hcan]
    simp [hu]

/-- Witness for C4 on `stateUntouched` (editing the untouched new issue
`"n1"`). -/
theorem c4_cancelEdit_untouched_vs_touched_witness :
    (cancelEdit stateUntouched).editingIssueId = none
    ∧ (cancelEdit stateUntouched).editForm = none
    ∧ (isUntouchedNew (newIssue "n1") = true →
        (cancelEdit stateUntouched).issues
          = stateUntouched.issues.filter (fun i => i.id != "n1")
        ∧ ∀ i ∈ (cancelEdit stateUntouched).issues, i.id ≠ "n1")
    ∧ (isUntouchedNew (newIssue "n1") = false →
        (cancelEdit stateUntouched).issues = stateUntouched.issues) :=
  c4_cancelEdit_untouched_vs_touched stateUntouched "n1" (newIssue "n1")
    rfl rfl

/- ### C5: saveEdit commits the buffer in place -/

/-- C5: during an editing session whose buffer carries the edited record's
identifier, `saveEdit` clears the editing id and the buffer, preserves the
length of the committed collection, overwrites every position holding the
edited identifier with the whole buffer (fields and both annotation
sequences), leaves every other position unchanged, and preserves the
identifier at every position. -/
theorem c5_saveEdit_commits_buffer (s : State) (eid : String) (buf : Issue)
    (he : s.editingIssueId = some eid) (hb : s.editForm = some buf)
    (hid : buf.id = eid) :
    (saveEdit s).editingIssueId = none ∧ (saveEdit s).editForm = none
    ∧ (saveEdit s).issues.length = s.issues.length
    ∧ (∀ k : ℕ, ∀ i : Issue, s.issues[k]? = some i →
        (i.id = eid → (saveEdit s).issues[k]? = some buf)
        ∧ (i.id ≠ eid → (saveEdit s).issues[k]? = some i))
    ∧ (∀ k : ℕ, ∀ i j : Issue,
        s.issues[k]? = some i → (saveEdit s).issues[k]? = some j →
          j.id = i.id) := by
  have hsave : saveEdit s =
      { issues := s.issues.map (fun i => if i.id == eid then buf else i),
        editingIssueId := none, editForm := none } := by
    unfold saveEdit
    rw [he, hb]
    rfl
  refine ⟨by rw [hsave], by rw [hsave], by rw [hsave]; simp, ?_, ?_⟩
  · intro k i hk
    constructor
    · intro hkid
      rw [hsave]
      simp [List.getElem?_map, hk, hkid]
    · intro hkid
      rw [hsave]
      simp [List.getElem?_map, hk, hkid]
  · intro k i j hk hj
    rw [hsave] at hj
    simp only [List.getElem?_map, hk, Option.map_some', Option.some.injEq] at hj
    by_cases hkid : i.id = eid
    · rw [← hj]
      simp [hkid, hid]
    · rw [← hj]
      simp [hkid]

/-- Witness for C5 on `stateTouched` (editing `"t1"` with an edited title and
an extra drawn annotation in the buffer). -/
theorem c5_saveEdit_commits_buffer_witness :
    (saveEdit stateTouched).editingIssueId = none
    ∧ (saveEdit stateTouched).editForm = none
    ∧ (saveEdit stateTouched).issues.length = stateTouched.issues.length
    ∧ (∀ k : ℕ, ∀ i : Issue, stateTouched.issues[k]? = some i →
        (i.id = "t1" → (saveEdit stateTouched).issues[k]?
            = some { touchedIssue with
                title := "Misaligned header (edited)",
                liveAnnotations :=
                  touchedIssue.liveAnnotations ++ [⟨.arrow, ⟨10, 10, 10, 40⟩⟩] })
        ∧ (i.id ≠ "t1" → (saveEdit stateTouched).issues[k]? = some i))
    ∧ (∀ k : ℕ, ∀ i j : Issue,
        stateTouched.issues[k]? = some i →
        (saveEdit stateTouched).issues[k]? = some j → j.id = i.id) :=
  c5_saveEdit_commits_buffer stateTouched "t1"
    { touchedIssue with
      title := "Misaligned header (edited)",
      liveAnnotations :=
        touchedIssue.liveAnnotations ++ [⟨.arrow, ⟨10, 10, 10, 40⟩⟩] }
    rfl rfl rfl

/- ### C6: collaborator adapter -/

/-- C6: for every raw specific issue, a present legacy box with exactly four
components becomes a single-element annotation sequence of kind box with
those coords (on the matching side), a missing or non-4-component box becomes
the empty sequence (total function, no crash), and the concrete scenario
`box_2d=[100,200,300,400]`, `design_box_2d=[110,210,310,410]` yields exactly
the claimed single-box sequences. -/
theorem c6_adapter_legacy_boxes (r : RawIssue) :
    (∀ a b c d : ℚ, r.box_2d = some [a, b, c, d] →
        (transformIssue r).liveAnnotations = [⟨.box, ⟨a, b, c, d⟩⟩])
    ∧ (∀ a b c d : ℚ, r.design_box_2d = some [a, b, c, d] →
        (transformIssue r).designAnnotations = [⟨.box, ⟨a, b, c, d⟩⟩])
    ∧ (r.box_2d = none → (transformIssue r).liveAnnotations = [])
    ∧ (∀ l : List ℚ, r.box_2d = some l → l.length ≠ 4 →
        (transformIssue r).liveAnnotations = [])
    ∧ (r.design_box_2d = none → (transformIssue r).designAnnotations = [])
    ∧ (∀ l : List ℚ, r.design_box_2d = some l → l.length ≠ 4 →
        (transformIssue r).designAnnotations = [])
    ∧ (transformIssue rawWellFormed).liveAnnotations
        = [⟨.box, ⟨100, 200, 300, 400⟩⟩]
    ∧ (transformIssue rawWellFormed).designAnnotations
        = [⟨.box, ⟨110, 210, 310, 410⟩⟩] := by
  refine ⟨?_, ?_, ?_, ?_, ?_, ?_, rfl, rfl⟩
  · intro a b c d hbox
    simp [transformIssue, annotationsFromBox, hbox]
  · intro a b c d hbox
    simp [transformIssue, annotationsFromBox, hbox]
  · intro hbox
    simp [transformIssue, annotationsFromBox, hbox]
  · intro l hbox hlen
    rcases l with _ | ⟨a, _ | ⟨b, _ | ⟨c, _ | ⟨d, _ | ⟨e, t⟩⟩⟩⟩⟩ <;>
      simp_all [transformIssue, annotationsFromBox]
  · intro hbox
    simp [transformIssue, annotationsFromBox, hbox]
  · intro l hbox hlen
    rcases l with _ | ⟨a, _ | ⟨b, _ | ⟨c, _ | ⟨d, _ | ⟨e, t⟩⟩⟩⟩⟩ <;>
      simp_all [transformIssue, annotationsFromBox]

/-- Witness for C6 on the well-formed and malformed concrete raw issues. -/
theorem c6_adapter_legacy_boxes_witness :
    (transformIssue rawWellFormed).liveAnnotations
      = [⟨.box, ⟨100, 200, 300, 400⟩⟩]
    ∧ (transformIssue rawMalformed).liveAnnotations = []
    ∧ (transformIssue rawMalformed).designAnnotations = [] :=
  ⟨(c6_adapter_legacy_boxes rawWellFormed).1 100 200 300 400 rfl,
   (c6_adapter_legacy_boxes rawMalformed).2.2.2.1 [100, 200, 300] rfl
     (by norm_num),
   (c6_adapter_legacy_boxes rawMalformed).2.2.2.2.1 rfl⟩

/- ### C9: the edit buffer never aliases or alters the committed data -/

/-- C9: `startEdit` seeds the buffer with the target issue's full content
(including both annotation sequences), and every buffer mutation — appending
a drawn annotation, deleting an annotation at an index, or editing
title/description/severity/annotation-kind preference — leaves the committed
issue collection (hence the committed record and its annotation sequences)
completely unchanged. -/
theorem c9_buffer_mutations_frame (s : State) (issue : Issue) :
    ((startEdit issue s).editForm = some issue
      ∧ (startEdit issue s).editingIssueId = some issue.id)
    ∧ (∀ (side : Side) (a : Annotation),
        ( appendAnnotation side a s).issues = s.issues)
    ∧ (∀ (side : Side) (k : ℕ),
        ( deleteAnnotation side k s).issues = s.issues)
    ∧ (∀ t : String, (setTitle t s).issues = s.issues)
    ∧ (∀ d : String, (setDescription d s).issues = s.issues)
    ∧ (∀ sev : Severity, (setSeverity sev s).issues = s.issues)
    ∧ (∀ t : AnnType, (setAnnTypePref t s).issues = s.issues) :=
  ⟨⟨rfl, rfl⟩, fun _ _ => rfl, fun _ _ => rfl, fun _ => rfl, fun _ => rfl,
   fun _ => rfl, fun _ => rfl⟩

/- ### C7: degenerate sentinel suppression (corrected) -/

/-- C7 counterexample: on an issue whose only design-side annotation is the
degenerate sentinel `[0,0,0,0]`, the crop view does NOT exclude it — the
crop-target box is exactly the degenerate annotation's coords, and
`getCropStyle` still produces a croppable style (background positioned at
the top-left corner), not the empty no-crop result. -/
theorem c7_crop_selects_degenerate_counterexample :
    cropBox degenerateFirstIssue .design = ⟨0, 0, 0, 0⟩
    ∧ getCropStyle degenerateFirstIssue (some "img") .design 300
        = some { image := "img", posX := 0, posY := 0, zoom := 300 }
    ∧ getCropStyle degenerateFirstIssue (some "img") .design 300 ≠ none := by
  refine ⟨rfl, ?_, ?_⟩ <;>
    simp [getCropStyle, cropBox, degenerateFirstIssue, annotationsOf]

/-- C7 amended: an annotation with the degenerate sentinel coords renders no
overlay (the interactive renderer returns nothing, and the export box-style
computation returns `display: none`); the crop view does not exclude it — it
keys on the first annotation unconditionally, and a degenerate first
annotation yields exactly the same crop style as an empty annotation
sequence (the corner-centered fallback). -/
theorem c7_degenerate_suppression_amended (a : Annotation)
    (h : a.coords = ⟨0, 0, 0, 0⟩) :
    renderAnnotation a = none
    ∧ exportGetStyle (some a.coords) = none
    ∧ (∀ (i : Issue) (img : Option String) (z : ℚ),
        i.designAnnotations = [a] →
          getCropStyle i img .design z
            = getCropStyle { i with designAnnotations := [] } img .design z)
    ∧ (∀ (i : Issue) (img : Option String) (z : ℚ),
        i.liveAnnotations = [a] →
          getCropStyle i img .live z
            = getCropStyle { i with liveAnnotations := [] } img .live z) := by
  refine ⟨?_, ?_, ?_, ?_⟩
  · simp [ renderAnnotation, h]
  · simp [exportGetStyle, h]
  · intro i img z hseq
    have hcb : cropBox i .design = ⟨0, 0, 0, 0⟩ := by
      simp [cropBox, annotationsOf, hseq, h]
    have hcb2 : cropBox { i with designAnnotations := [] } .design
        = ⟨0, 0, 0, 0⟩ := by
      simp [cropBox, annotationsOf]
    cases img with
    | none => rfl
    | some src => simp [getCropStyle, hcb, hcb2]
  · intro i img z hseq
    have hcb : cropBox i .live = ⟨0, 0, 0, 0⟩ := by
      simp [cropBox, annotationsOf, hseq, h]
    have hcb2 : cropBox { i with liveAnnotations := [] } .live
        = ⟨0, 0, 0, 0⟩ := by
      simp [cropBox, annotationsOf]
    cases img with
    | none => rfl
    | some src => simp [getCropStyle, hcb, hcb2]

/-- Witness for the amended C7 at the concrete degenerate box annotation. -/
theorem c7_degenerate_suppression_amended_witness :
    renderAnnotation ⟨.box, ⟨0, 0, 0, 0⟩⟩ = none
    ∧ exportGetStyle (some ((⟨.box, ⟨0, 0, 0, 0⟩⟩ : Annotation)).coords) = none
    ∧ (∀ (i : Issue) (img : Option String) (z : ℚ),
        i.designAnnotations = [⟨.box, ⟨0, 0, 0, 0⟩⟩] →
          getCropStyle i img .design z
            = getCropStyle { i with designAnnotations := [] } img .design z)
    ∧ (∀ (i : Issue) (img : Option String) (z : ℚ),
        i.liveAnnotations = [⟨.box, ⟨0, 0, 0, 0⟩⟩] →
          getCropStyle i img .live z
            = getCropStyle { i with liveAnnotations := [] } img .live z) :=
  c7_degenerate_suppression_amended ⟨.box, ⟨0, 0, 0, 0⟩⟩ rfl

/- ### C8: coordinate range invariant (corrected) -/

/-- The clamp of `handleMouseMove` always lands inside the surface bounds. -/
theorem clampToSurface_bounds (p : Point) (w h : ℚ) (hw : 0 ≤ w) (hh : 0 ≤ h) :
    0 ≤ (clampToSurface p w h).x ∧ (clampToSurface p w h).x ≤ w
    ∧ 0 ≤ (clampToSurface p w h).y ∧ (clampToSurface p w h).y ≤ h := by
  refine ⟨le_max_left 0 _, max_le hw (min_le_right _ _),
          le_max_left 0 _, max_le hh (min_le_right _ _)⟩

/-- A pixel value inside `[0, dim]` normalizes into `[0, 1000]`. -/
theorem toNormalized_range (p d : ℚ) (hd : 0 < d) (h0 : 0 ≤ p) (h1 : p ≤ d) :
    0 ≤ toNormalized p d ∧ toNormalized p d ≤ 1000 := by
  constructor
  · exact mul_nonneg (div_nonneg h0 hd.le) (by norm_num)
  · have h2 : p / d ≤ 1 := (div_le_one hd).mpr h1
    have h3 := mul_le_mul_of_nonneg_right h2 (by norm_num : (0 : ℚ) ≤ 1000)
    simpa [toNormalized] using h3

/-- C8 counterexample: the adapter performs no clamping or validation, so a
collaborator box with a component outside `[0, 1000]` (here `2000`) is stored
verbatim — the resulting stored annotation violates the claimed range
invariant. -/
theorem c8_counterexample_adapter_out_of_range :
    ¬ ∀ a ∈ (transformIssue rawOutOfRange).liveAnnotations,
        coordsInRange a.coords := by
  decide

/-- C8 amended: annotations produced by a completed drag whose start lies in
the surface and whose current pointer was clamped by the move handler always
have all four coordinates in `[0, 1000]` (for a positive-size surface);
annotations produced by the collaborator adapter carry the collaborator's
box components verbatim (no clamping or validation), so their coordinates
lie in `[0, 1000]` exactly when the collaborator's components do. -/
theorem c8_coords_range_amended :
    (∀ (p c : Point) (w h : ℚ), 0 < w → 0 < h →
      0 ≤ p.x → p.x ≤ w → 0 ≤ p.y → p.y ≤ h →
      ∀ (pref : Option AnnType) (a : Annotation),
        handleMouseUp pref p (clampToSurface c w h) w h = some a →
          coordsInRange a.coords)
    ∧ (∀ r : RawIssue,
        (∀ l : List ℚ, r.box_2d = some l → ∀ q ∈ l, 0 ≤ q ∧ q ≤ 1000) →
        ∀ a ∈ (transformIssue r).liveAnnotations, coordsInRange a.coords)
    ∧ (∀ r : RawIssue,
        (∀ l : List ℚ, r.design_box_2d = some l → ∀ q ∈ l, 0 ≤ q ∧ q ≤ 1000) →
        ∀ a ∈ (transformIssue r).designAnnotations, coordsInRange a.coords) := by
  refine ⟨?_, ?_, ?_⟩
  · intro p c w h hw hh hx0 hx1 hy0 hy1 pref a hc
    by_cases hth : |p.x - (clampToSurface c w h).x| < 5
        ∧ |p.y - (clampToSurface c w h).y| < 5
    · rw [handleMouseUp, if_pos hth] at hc
      exact absurd hc (by simp)
    · rw [handleMouseUp, if_neg hth] at hc
      simp only [Option.some.injEq] at hc
      subst hc
      obtain ⟨hcx0, hcx1, hcy0, hcy1⟩ := clampToSurface_bounds c w h hw.le hh.le
      have hsX := toNormalized_range p.x w hw hx0 hx1
      have hsY := toNormalized_range p.y h hh hy0 hy1
      have heX := toNormalized_range (clampToSurface c w h).x w hw hcx0 hcx1
      have heY := toNormalized_range (clampToSurface c w h).y h hh hcy0 hcy1
      dsimp only
      cases pref.getD AnnType.box with
      | arrow =>
        simp only [dragCoords, coordsInRange]
        exact ⟨hsY, hsX, heY, heX⟩
      | box =>
        simp only [dragCoords, coordsInRange]
        exact ⟨⟨le_min hsY.1 heY.1, (min_le_left _ _).trans hsY.2⟩,
               ⟨le_min hsX.1 heX.1, (min_le_left _ _).trans hsX.2⟩,
               ⟨hsY.1.trans (le_max_left _ _), max_le hsY.2 heY.2⟩,
               ⟨hsX.1.trans (le_max_left _ _), max_le hsX.2 heX.2⟩⟩
  · intro r hin a ha
    cases hb : r.box_2d with
    | none => simp [transformIssue, annotationsFromBox, hb] at ha
    | some l =>
      have hmem := hin l hb
      rcases l with _ | ⟨q1, l⟩
      · simp [transformIssue, annotationsFromBox, hb] at ha
      rcases l with _ | ⟨q2, l⟩
      · simp [transformIssue, annotationsFromBox, hb] at ha
      rcases l with _ | ⟨q3, l⟩
      · simp [transformIssue, annotationsFromBox, hb] at ha
      rcases l with _ | ⟨q4, l⟩
      · simp [transformIssue, annotationsFromBox, hb] at ha
      rcases l with _ | ⟨q5, l⟩
      · simp [transformIssue, annotationsFromBox, hb] at ha
        subst ha
        exact ⟨hmem q1 (by simp), hmem q2 (by simp),
               hmem q3 (by simp), hmem q4 (by simp)⟩
      · simp [transformIssue, annotationsFromBox, hb] at ha
  · intro r hin a ha
    cases hb : r.design_box_2d with
    | none => simp [transformIssue, annotationsFromBox, hb] at ha
    | some l =>
      have hmem := hin l hb
      rcases l with _ | ⟨q1, l⟩
      · simp [transformIssue, annotationsFromBox, hb] at ha
      rcases l with _ | ⟨q2, l⟩
      · simp [transformIssue, annotationsFromBox, hb] at ha
      rcases l with _ | ⟨q3, l⟩
      · simp [transformIssue, annotationsFromBox, hb] at ha
      rcases l with _ | ⟨q4, l⟩
      · simp [transformIssue, annotationsFromBox, hb] at ha
      rcases l with _ | ⟨q5, l⟩
      · simp [transformIssue, annotationsFromBox, hb] at ha
        subst ha
        exact ⟨hmem q1 (by simp), hmem q2 (by simp),
               hmem q3 (by simp), hmem q4 (by simp)⟩
      · simp [transformIssue, annotationsFromBox, hb] at ha

/-- Witness for the amended C8: a concrete completed drag inside a 1000×1000
surface yields in-range coords, and the adapter on the well-formed concrete
raw issue yields in-range coords. -/
theorem c8_coords_range_amended_witness :
    coordsInRange ((⟨.box, ⟨20, 10, 220, 110⟩⟩ : Annotation)).coords
    ∧ ∀ a ∈ (transformIssue rawWellFormed).liveAnnotations,
        coordsInRange a.coords :=
  ⟨c8_coords_range_amended.1 ⟨10, 20⟩ ⟨110, 220⟩ 1000 1000
      (by norm_num) (by norm_num) (by norm_num) (by norm_num) (by norm_num)
      (by norm_num) (some .box) ⟨.box, ⟨20, 10, 220, 110⟩⟩
      (by norm_num [handleMouseUp, dragCoords, toNormalized, clampToSurface]),
   c8_coords_range_amended.2.1 rawWellFormed
      (by
        intro l hl
        rw [show rawWellFormed.box_2d = some [100, 200, 300, 400] from rfl] at hl
        injection hl with hl
        subst hl
        intro q hq
        simp only [List.mem_cons, List.not_mem_nil, or_false] at hq
        rcases hq with rfl | rfl | rfl | rfl <;> norm_num)⟩

/- ### C10: createIssue under an active edit session (code bug) -/

/-- C10 evaluated at the failing input: `stateUntouched` is editing the
untouched new issue `"n1"`; invoking `createIssue` with fresh identifier
`"fresh"` ends with the committed collection missing the new record entirely
(the stale-snapshot `setIssues` of the cancel path overwrites the prepend),
while the editing machine is left editing the absent record `"fresh"`. -/
theorem c10_createIssue_drops_new_record :
    (createIssue "fresh" stateUntouched).issues = [touchedIssue]
    ∧ (∀ i ∈ (createIssue "fresh" stateUntouched).issues, i.id ≠ "fresh")
    ∧ (createIssue "fresh" stateUntouched).editingIssueId = some "fresh"
    ∧ (createIssue "fresh" stateUntouched).editForm = some (newIssue "fresh") := by
  refine ⟨by decide, by decide, rfl, rfl⟩

end AnnotateTool
